import Mathlib

/-!
Verification of the POS+KDS backend workflow service (`src/main.py`,
`src/schemas.py`) against its specification.

The HTTP endpoints of `main.py` are shallowly embedded as pure functions over
an explicit `Store` state.  Money amounts are modelled as rationals and
`round(x, 2)` as half-even rounding to two decimal places.  Record identifiers
are opaque naturals drawn from a per-store fresh counter.

Modelled from the spec: the document store itself (`database.py`, providing
`create_document` / lookup / update, not present under `src/`) is embedded per
spec section 4.1 as association lists keyed by a generated unique identifier,
with `create` appending a record under a fresh id, `findOne` returning the
first match in insertion order, and `update` merging fields into the record
with the given id.
-/

namespace POS

/-- Half-even ("banker's") rounding of a rational to the nearest integer:
ties go to the even neighbour.  Mirrors Python `round` on the scaled value. -/
def roundHalfEvenZ (q : ℚ) : ℤ :=
  let f : ℤ := ⌊q⌋
  let r : ℚ := q - f
  if r < 1/2 then f
  else if 1/2 < r then f + 1
  else if Even f then f else f + 1

/-- Python `round(x, 2)`: half-even rounding to 2 decimal places. -/
def round2 (q : ℚ) : ℚ := (roundHalfEvenZ (q * 100) : ℚ) / 100

inductive StationStatus
  | available | inUse | offline | maintenance
deriving DecidableEq

inductive SessionStatus
  | active | ended | paused
deriving DecidableEq

inductive OrderStatus
  | pending | preparing | ready | served | canceled
deriving DecidableEq

inductive PayMethod
  | cash | upi | card
deriving DecidableEq

inductive PayStatus
  | initiated | success | failed | refunded
deriving DecidableEq

/-- `schemas.Station`. -/
structure Station where
  cafe_id : String
  name : String
  status : StationStatus
  current_session_id : Option Nat
deriving DecidableEq

/-- `schemas.Session` (fields the workflow reads or writes). -/
structure Session where
  cafe_id : String
  station_id : Nat
  customer_name : Option String
  status : SessionStatus
  started_at : Option String
  ended_at : Option String
deriving DecidableEq

/-- `schemas.MenuItem`. -/
structure MenuItem where
  cafe_id : String
  name : String
  price : ℚ
  is_active : Bool
deriving DecidableEq

/-- `schemas.OrderItem`: the per-line snapshot embedded in an order. -/
structure OrderItem where
  item_id : Nat
  name : String
  qty : ℤ
  unit_price : ℚ
  total_price : ℚ
deriving DecidableEq

/-- `schemas.Order`. -/
structure Order where
  cafe_id : String
  session_id : Option Nat
  station_id : Option Nat
  status : OrderStatus
  items : List OrderItem
  subtotal : ℚ
  tax : ℚ
  total : ℚ
  notes : Option String
deriving DecidableEq

/-- `schemas.Payment`. -/
structure Payment where
  cafe_id : String
  order_id : Option Nat
  session_id : Option Nat
  amount : ℚ
  method : PayMethod
  status : PayStatus
  idempotency_key : String
deriving DecidableEq

/-- `schemas.Settings`. -/
structure Settings where
  cafe_id : String
  currency : String
  tax_rate : ℚ
  service_charge_rate : ℚ
deriving DecidableEq

/-- `schemas.AuditLog` (the fields `main.audit` fills; the free-form
`payload` dict is not modelled, no claim depends on it). -/
structure AuditLog where
  action : String
  table : String
  record_id : Option Nat
  cafe_id : Option String
deriving DecidableEq

/-- The document store: one association list per collection, plus the fresh-id
counter.  Audit entries are kept without ids (nothing ever reads them back). -/
structure Store where
  stations : List (Nat × Station)
  sessions : List (Nat × Session)
  menuitems : List (Nat × MenuItem)
  orders : List (Nat × Order)
  payments : List (Nat × Payment)
  settings : List (Nat × Settings)
  auditlog : List AuditLog
  nextId : Nat
deriving DecidableEq

/-- `findOne` by id: first record with the given id, in insertion order. -/
def findById {α : Type} (l : List (Nat × α)) (i : Nat) : Option α :=
  (l.find? (fun p => p.1 == i)).map Prod.snd

/-- `update_one` by id with a `$set` of fields, expressed as a record map. -/
def updateById {α : Type} (l : List (Nat × α)) (i : Nat) (f : α → α) :
    List (Nat × α) :=
  l.map (fun p => if p.1 == i then (p.1, f p.2) else p)

/-- `n` is not yet used as a key of `l` (fresh id). -/
def freshFor {α : Type} (l : List (Nat × α)) (n : Nat) : Prop :=
  ∀ p ∈ l, p.1 ≠ n

instance freshFor.decidable {α : Type} (l : List (Nat × α)) (n : Nat) :
    Decidable (freshFor l n) := by
  unfold freshFor; infer_instance

/-- HTTP error taxonomy of `main.py` (`HTTPException` status codes). -/
inductive Err
  | badRequest (msg : String)
  | notFound (msg : String)
  | conflict (msg : String)
deriving DecidableEq

/-- `main.audit`: best-effort audit write.  `ok` says whether the underlying
`create_document` call succeeds; on failure the exception is swallowed and the
store is left untouched. -/
def audit (ok : Bool) (e : AuditLog) (s : Store) : Store :=
  if ok then { s with auditlog := s.auditlog ++ [e] } else s

/-- Everything of a store except the audit log. -/
def Store.core (s : Store) : Store := { s with auditlog := [] }

/-- `schemas.StartSessionRequest`. -/
structure StartSessionRequest where
  cafe_id : String
  station_id : Nat
  customer_name : Option String

/-- `main.start_session` (`POST /sessions/start`).  `now` is the wall-clock
timestamp `now_iso()` would produce; `auditOk` is whether the audit write
succeeds. -/
def start_session (req : StartSessionRequest) (now : String) (auditOk : Bool)
    (s : Store) : Except Err Nat × Store :=
  match findById s.stations req.station_id with
  | none => (.error (.notFound "Station not found"), s)
  | some st =>
    if st.status = .inUse then
      (.error (.conflict "Station already in use"), s)
    else
      let sess : Session :=
        { cafe_id := req.cafe_id, station_id := req.station_id,
          customer_name := req.customer_name, status := .active,
          started_at := some now, ended_at := none }
      let sid := s.nextId
      let s1 := { s with sessions := s.sessions ++ [(sid, sess)],
                         nextId := s.nextId + 1 }
      let stations2 :=
        updateById s1.stations req.station_id
          (fun x => { x with status := .inUse, current_session_id := some sid })
      let s2 := { s1 with stations := stations2 }
      (.ok sid,
        audit auditOk
          { action := "create", table := "session", record_id := some sid,
            cafe_id := some req.cafe_id } s2)

/-- `main.end_session` (`POST /sessions/end`). -/
def end_session (session_id : Nat) (now : String) (auditOk : Bool)
    (s : Store) : Except Err Unit × Store :=
  match findById s.sessions session_id with
  | none => (.error (.notFound "Session not found"), s)
  | some sess =>
    if sess.status = .ended then (.ok (), s)
    else
      let sessions2 :=
        updateById s.sessions session_id
          (fun x => { x with status := .ended, ended_at := some now })
      let s1 := { s with sessions := sessions2 }
      let stations2 :=
        updateById s1.stations sess.station_id
          (fun st => { st with status := .available,
                               current_session_id := none })
      let s2 := { s1 with stations := stations2 }
      (.ok (),
        audit auditOk
          { action := "update", table := "session",
            record_id := some session_id, cafe_id := some sess.cafe_id } s2)

/-- A requested order line (`CreateOrderRequest.items` entry, a free-form
dict in the source): `item_id`, an optional `qty` (`it.get("qty", 1)`) and an
optional client-supplied `price`, which `create_order` never reads. -/
structure ReqItem where
  item_id : Nat
  qty : Option ℤ
  price : Option ℚ

/-- `schemas.CreateOrderRequest`. -/
structure CreateOrderRequest where
  cafe_id : String
  session_id : Option Nat
  station_id : Option Nat
  items : List ReqItem
  notes : Option String

/-- The menu-item gate of `create_order`: the item exists and is active
(`if not item_doc or not item_doc.get("is_active", True)`). -/
def itemOkB (s : Store) (item_id : Nat) : Bool :=
  match findById s.menuitems item_id with
  | some m => m.is_active
  | none => false

/-- A request line passes `create_order` validation: valid menu item and
positive quantity. -/
def validLineB (s : Store) (it : ReqItem) : Bool :=
  itemOkB s it.item_id && decide (0 < it.qty.getD 1)

/-- The `OrderItem` snapshot `create_order` builds for a request line (only
meaningful when the menu item exists; the `none` branch is junk never reached
under validation). -/
def lineOf (s : Store) (it : ReqItem) : OrderItem :=
  match findById s.menuitems it.item_id with
  | some doc =>
    { item_id := it.item_id, name := doc.name, qty := it.qty.getD 1,
      unit_price := doc.price, total_price := doc.price * (it.qty.getD 1 : ℤ) }
  | none =>
    { item_id := it.item_id, name := "", qty := 0, unit_price := 0,
      total_price := 0 }

/-- The validation/pricing loop of `create_order`: builds the `OrderItem`
snapshots and the subtotal, failing on the first invalid line exactly as the
source does. -/
def buildLines (s : Store) : List ReqItem → Except Err (List OrderItem × ℚ)
  | [] => .ok ([], 0)
  | it :: rest =>
    match findById s.menuitems it.item_id with
    | none => .error (.badRequest ("Invalid menu item: " ++ toString it.item_id))
    | some doc =>
      if doc.is_active = false then
        .error (.badRequest ("Invalid menu item: " ++ toString it.item_id))
      else
        let qty := it.qty.getD 1
        if qty ≤ 0 then .error (.badRequest "Invalid quantity")
        else
          match buildLines s rest with
          | .error e => .error e
          | .ok (lines, sub) =>
            .ok ({ item_id := it.item_id, name := doc.name, qty := qty,
                   unit_price := doc.price,
                   total_price := doc.price * (qty : ℤ) } :: lines,
                 doc.price * (qty : ℤ) + sub)

/-- The tax rate `create_order` uses:
`db.settings.find_one({"cafe_id": ...}) or {"tax_rate": 0.0}`. -/
def taxRateOf (s : Store) (cafe : String) : ℚ :=
  match s.settings.find? (fun p => p.2.cafe_id == cafe) with
  | some p => p.2.tax_rate
  | none => 0

/-- `main.create_order` (`POST /orders`). -/
def create_order (req : CreateOrderRequest) (auditOk : Bool) (s : Store) :
    Except Err (Nat × ℚ) × Store :=
  if req.items.isEmpty then
    (.error (.badRequest "Order must have items"), s)
  else
    match buildLines s req.items with
    | .error e => (.error e, s)
    | .ok (lines, subtotal) =>
      let tax := round2 (subtotal * taxRateOf s req.cafe_id)
      let total := round2 (subtotal + tax)
      let order : Order :=
        { cafe_id := req.cafe_id, session_id := req.session_id,
          station_id := req.station_id, status := .pending, items := lines,
          subtotal := subtotal, tax := tax, total := total,
          notes := req.notes }
      let oidNew := s.nextId
      let s1 := { s with orders := s.orders ++ [(oidNew, order)],
                         nextId := s.nextId + 1 }
      (.ok (oidNew, total),
        audit auditOk
          { action := "create", table := "order", record_id := some oidNew,
            cafe_id := some req.cafe_id } s1)

/-- `main.update_order_status` (`POST /orders/status`). -/
def update_order_status (order_id : Nat) (newStatus : OrderStatus)
    (auditOk : Bool) (s : Store) : Except Err Unit × Store :=
  match findById s.orders order_id with
  | none => (.error (.notFound "Order not found"), s)
  | some o =>
    let orders2 := updateById s.orders order_id
      (fun x => { x with status := newStatus })
    let s1 := { s with orders := orders2 }
    (.ok (),
      audit auditOk
        { action := "update", table := "order", record_id := some order_id,
          cafe_id := some o.cafe_id } s1)

/-- `schemas.CheckoutRequest`. -/
structure CheckoutRequest where
  cafe_id : String
  session_id : Option Nat
  order_id : Option Nat
  amount : ℚ
  method : PayMethod
  idempotency_key : String

/-- A stored payment matches the idempotent-replay query
`{"idempotency_key": key, "status": "success"}`. -/
def replayMatch (key : String) (p : Nat × Payment) : Bool :=
  p.2.idempotency_key == key && p.2.status == PayStatus.success

/-- Checkout step 3: if a `session_id` was given and that session is not yet
ended, end it and free its station (`main.checkout`, session block). -/
def checkoutSessionStep (session_id : Option Nat) (now : String)
    (auditOk : Bool) (s : Store) : Store :=
  match session_id with
  | none => s
  | some sid =>
    match findById s.sessions sid with
    | none => s
    | some sess =>
      if sess.status = .ended then s
      else
        let sessions2 := updateById s.sessions sid
          (fun x => { x with status := .ended, ended_at := some now })
        let s1 := { s with sessions := sessions2 }
        let stations2 := updateById s1.stations sess.station_id
          (fun st => { st with status := .available,
                               current_session_id := none })
        let s2 := { s1 with stations := stations2 }
        audit auditOk
          { action := "update", table := "session", record_id := some sid,
            cafe_id := some sess.cafe_id } s2

/-- Checkout step 4: if an `order_id` was given, force its status to `served`
(`main.checkout`, order block). -/
def checkoutOrderStep (order_id : Option Nat) (auditOk : Bool)
    (s : Store) : Store :=
  match order_id with
  | none => s
  | some oidGiven =>
    let orders2 := updateById s.orders oidGiven
      (fun o => { o with status := .served })
    let s1 := { s with orders := orders2 }
    audit auditOk
      { action := "update", table := "order", record_id := some oidGiven,
        cafe_id := none } s1

/-- The Payment record a non-replay checkout stores: status is immediately
`success` (no gateway integration). -/
def newPayment (req : CheckoutRequest) : Payment :=
  { cafe_id := req.cafe_id, order_id := req.order_id,
    session_id := req.session_id, amount := req.amount,
    method := req.method, status := .success,
    idempotency_key := req.idempotency_key }

/-- `main.checkout` (`POST /checkout`). -/
def checkout (req : CheckoutRequest) (now : String) (auditOk : Bool)
    (s : Store) : Except Err (Nat × PayStatus) × Store :=
  match s.payments.find? (replayMatch req.idempotency_key) with
  | some p => (.ok (p.1, .success), s)
  | none =>
    let pid := s.nextId
    let s1 := { s with payments := s.payments ++ [(pid, newPayment req)],
                       nextId := s.nextId + 1 }
    let s2 := checkoutSessionStep req.session_id now auditOk s1
    let s3 := checkoutOrderStep req.order_id auditOk s2
    (.ok (pid, .success),
      audit auditOk
        { action := "create", table := "payment", record_id := some pid,
          cafe_id := some req.cafe_id } s3)

/-- The default settings record `get_settings` lazily creates:
`{currency: "INR", tax_rate: 0.05, service_charge_rate: 0.0}`. -/
def defaultSettings (cafe : String) : Settings :=
  { cafe_id := cafe, currency := "INR", tax_rate := 1/20,
    service_charge_rate := 0 }

/-- `main.get_settings` (`GET /settings`): return the stored settings for the
cafe, creating the defaults if none exist.  No audit entry is written. -/
def get_settings (cafe : String) (s : Store) : Settings × Store :=
  match s.settings.find? (fun p => p.2.cafe_id == cafe) with
  | some p => (p.2, s)
  | none =>
    let d := defaultSettings cafe
    (d, { s with settings := s.settings ++ [(s.nextId, d)],
                 nextId := s.nextId + 1 })

/-! ### Concrete sample data, used to evaluate the theorems on real inputs -/

def stAvail : Station :=
  { cafe_id := "c1", name := "PS-1", status := .available,
    current_session_id := none }

def stOffline : Station :=
  { cafe_id := "c1", name := "PS-2", status := .offline,
    current_session_id := none }

def stMaint : Station :=
  { cafe_id := "c1", name := "PS-3", status := .maintenance,
    current_session_id := none }

def stBusy : Station :=
  { cafe_id := "c1", name := "PS-4", status := .inUse,
    current_session_id := some 5 }

def sessActive : Session :=
  { cafe_id := "c1", station_id := 4, customer_name := some "Walk-in",
    status := .active, started_at := some "t0", ended_at := none }

def sessEnded : Session :=
  { cafe_id := "c1", station_id := 1, customer_name := none,
    status := .ended, started_at := some "t0", ended_at := some "t1" }

def miCoffee : MenuItem :=
  { cafe_id := "c1", name := "Coffee", price := 100, is_active := true }

def miCake : MenuItem :=
  { cafe_id := "c1", name := "Cake", price := 50, is_active := true }

def miRetired : MenuItem :=
  { cafe_id := "c1", name := "Retired", price := 10, is_active := false }

def ordPending : Order :=
  { cafe_id := "c1", session_id := none, station_id := none,
    status := .pending, items := [], subtotal := 0, tax := 0, total := 0,
    notes := none }

def payOld : Payment :=
  { cafe_id := "c1", order_id := none, session_id := none, amount := 5,
    method := .cash, status := .success, idempotency_key := "kOld" }

def setC1 : Settings :=
  { cafe_id := "c1", currency := "INR", tax_rate := 1/20,
    service_charge_rate := 0 }

def storeA : Store :=
  { stations := [(1, stAvail), (2, stOffline), (3, stMaint), (4, stBusy)],
    sessions := [(5, sessActive), (6, sessEnded)],
    menuitems := [(7, miCoffee), (8, miCake), (9, miRetired)],
    orders := [(10, ordPending)],
    payments := [(11, payOld)],
    settings := [(12, setC1)],
    auditlog := [], nextId := 20 }

/-- The subtotal a valid order request prices to: the sum of the stored-price
line totals. -/
def orderSubtotal (s : Store) (req : CreateOrderRequest) : ℚ :=
  ((req.items.map (lineOf s)).map OrderItem.total_price).sum

/-- The order record `create_order` persists for a valid request. -/
def pricedOrder (s : Store) (req : CreateOrderRequest) : Order :=
  { cafe_id := req.cafe_id, session_id := req.session_id,
    station_id := req.station_id, status := .pending,
    items := req.items.map (lineOf s),
    subtotal := orderSubtotal s req,
    tax := round2 (orderSubtotal s req * taxRateOf s req.cafe_id),
    total := round2 (orderSubtotal s req +
      round2 (orderSubtotal s req * taxRateOf s req.cafe_id)),
    notes := req.notes }

/-- Sample order lines: 2 × Coffee(100) + 1 × Cake(50); the second line also
carries a client-supplied price, which must be ignored. -/
def linesW : List ReqItem := [⟨7, some 2, none⟩, ⟨8, some 1, some 999⟩]

def reqOrderW : CreateOrderRequest := ⟨"c1", none, none, linesW, none⟩

/-- The same order placed for a cafe that has no settings record. -/
def reqOrderW2 : CreateOrderRequest := ⟨"c2", none, none, linesW, none⟩

/-- An order request with one inactive line. -/
def reqOrderBad : CreateOrderRequest :=
  ⟨"c1", none, none, [⟨7, some 2, none⟩, ⟨9, some 1, none⟩], none⟩

/-- A checkout request against the already-stored successful payment key. -/
def reqPayReplay : CheckoutRequest := ⟨"c1", none, none, 777, .upi, "kOld"⟩

/-- A fresh checkout request that ends session 5 and serves order 10. -/
def reqPayNew : CheckoutRequest := ⟨"c1", some 5, some 10, 250, .cash, "kNew"⟩

/-! ### Association-list lemmas -/

theorem findById_append_fresh {α : Type} (l : List (Nat × α)) (n : Nat)
    (x : α) (h : freshFor l n) : findById (l ++ [(n, x)]) n = some x := by
  have h1 : l.find? (fun p => p.1 == n) = none := by
    rw [List.find?_eq_none]
    intro p hp
    simpa using h p hp
  simp [findById, List.find?_append, h1]

theorem findById_append_ne {α : Type} (l : List (Nat × α)) (n m : Nat)
    (x : α) (h : m ≠ n) : findById (l ++ [(n, x)]) m = findById l m := by
  simp only [findById, List.find?_append]
  have h1 : [(n, x)].find? (fun p => p.1 == m) = none := by
    simp [Ne.symm h]
  rw [h1]
  cases l.find? (fun p => p.1 == m) <;> rfl

theorem findById_updateById_self {α : Type} (l : List (Nat × α)) (i : Nat)
    (f : α → α) : findById (updateById l i f) i = (findById l i).map f := by
  induction l with
  | nil => rfl
  | cons hd tl ih =>
    by_cases h : hd.1 = i
    · simp [findById, updateById, h]
    · have hb : (hd.1 == i) = false := by simpa using h
      simp only [findById, updateById, List.map_cons, hb, if_false] at ih ⊢
      rw [List.find?_cons_of_neg, List.find?_cons_of_neg]
      · exact ih
      · simpa using h
      · simpa using h

theorem findById_updateById_ne {α : Type} (l : List (Nat × α)) (i j : Nat)
    (f : α → α) (h : j ≠ i) :
    findById (updateById l i f) j = findById l j := by
  induction l with
  | nil => rfl
  | cons hd tl ih =>
    by_cases hh : hd.1 = i
    · have hb : (hd.1 == j) = false := by
        simp [hh, Ne.symm h]
      simp only [findById, updateById, List.map_cons, hh, if_pos,
        beq_self_eq_true] at ih ⊢
      rw [List.find?_cons_of_neg, List.find?_cons_of_neg]
      · exact ih
      · simpa using hb
      · simpa [hh] using Ne.symm h
    · have hb : (hd.1 == i) = false := by simpa using hh
      simp only [findById, updateById, List.map_cons, hb, if_false] at ih ⊢
      by_cases hj : hd.1 = j
      · rw [List.find?_cons_of_pos, List.find?_cons_of_pos] <;> simp [hj]
      · rw [List.find?_cons_of_neg, List.find?_cons_of_neg]
        · exact ih
        · simpa using hj
        · simpa using hj

/-! ### Audit projections: the audit write touches only the audit log -/

@[simp] theorem audit_stations (b : Bool) (e : AuditLog) (s : Store) :
    (audit b e s).stations = s.stations := by
  unfold audit; split <;> rfl

@[simp] theorem audit_sessions (b : Bool) (e : AuditLog) (s : Store) :
    (audit b e s).sessions = s.sessions := by
  unfold audit; split <;> rfl

@[simp] theorem audit_menuitems (b : Bool) (e : AuditLog) (s : Store) :
    (audit b e s).menuitems = s.menuitems := by
  unfold audit; split <;> rfl

@[simp] theorem audit_orders (b : Bool) (e : AuditLog) (s : Store) :
    (audit b e s).orders = s.orders := by
  unfold audit; split <;> rfl

@[simp] theorem audit_payments (b : Bool) (e : AuditLog) (s : Store) :
    (audit b e s).payments = s.payments := by
  unfold audit; split <;> rfl

@[simp] theorem audit_settings (b : Bool) (e : AuditLog) (s : Store) :
    (audit b e s).settings = s.settings := by
  unfold audit; split <;> rfl

@[simp] theorem audit_nextId (b : Bool) (e : AuditLog) (s : Store) :
    (audit b e s).nextId = s.nextId := by
  unfold audit; split <;> rfl

theorem core_audit (b : Bool) (e : AuditLog) (s : Store) :
    (audit b e s).core = s.core := by
  unfold audit Store.core; split <;> rfl

/-! ### Session lifecycle -/

/-- Shared success case of `start_session`: any station whose status is not
`in-use` lets the session start, with the documented effects. -/
theorem start_session_ok (req : StartSessionRequest) (now : String) (b : Bool)
    (s : Store) (st : Station) (hfresh : freshFor s.sessions s.nextId)
    (h : findById s.stations req.station_id = some st)
    (hst : st.status ≠ .inUse) :
    (start_session req now b s).1 = .ok s.nextId ∧
    findById (start_session req now b s).2.sessions s.nextId =
      some { cafe_id := req.cafe_id, station_id := req.station_id,
             customer_name := req.customer_name, status := .active,
             started_at := some now, ended_at := none } ∧
    findById (start_session req now b s).2.stations req.station_id =
      some { st with status := .inUse, current_session_id := some s.nextId } := by
  simp only [start_session, h, if_neg hst]
  refine ⟨by trivial, ?_, ?_⟩
  · simp only [audit_sessions]
    exact findById_append_fresh _ _ _ hfresh
  · simp only [audit_stations]
    rw [findById_updateById_self]
    simp [h]

/-! ### Order pricing lemmas -/

theorem lineOf_total (s : Store) (it : ReqItem) :
    (lineOf s it).total_price = (lineOf s it).unit_price * (lineOf s it).qty := by
  unfold lineOf
  cases findById s.menuitems it.item_id <;> simp

theorem itemOkB_eq (s : Store) (i : Nat) (m : MenuItem)
    (h : findById s.menuitems i = some m) : itemOkB s i = m.is_active := by
  simp [itemOkB, h]

theorem itemOkB_none (s : Store) (i : Nat)
    (h : findById s.menuitems i = none) : itemOkB s i = false := by
  simp [itemOkB, h]

theorem buildLines_ok (s : Store) (items : List ReqItem)
    (h : ∀ it ∈ items, validLineB s it = true) :
    buildLines s items =
      .ok (items.map (lineOf s),
        ((items.map (lineOf s)).map OrderItem.total_price).sum) := by
  induction items with
  | nil => simp [buildLines]
  | cons hd tl ih =>
    have hhd := h hd (by simp)
    have htl : ∀ it ∈ tl, validLineB s it = true := fun it hit =>
      h it (by simp [hit])
    rw [validLineB, Bool.and_eq_true] at hhd
    obtain ⟨hok, hqty⟩ := hhd
    rw [decide_eq_true_eq] at hqty
    cases hfind : findById s.menuitems hd.item_id with
    | none => rw [itemOkB_none s _ hfind] at hok; cases hok
    | some doc =>
      rw [itemOkB_eq s _ doc hfind] at hok
      have hact : ¬ (doc.is_active = false) := by simp [hok]
      have hno : ¬ (hd.qty.getD 1 ≤ 0) := not_le.mpr hqty
      simp only [buildLines, hfind, if_neg hact, if_neg hno, ih htl]
      simp [lineOf, hfind]

theorem buildLines_error (s : Store) (items : List ReqItem) : ∀ e : Err,
    buildLines s items = .error e →
    ∃ msg, e = .badRequest msg ∧
      ((∃ it ∈ items, itemOkB s it.item_id = false ∧
          msg = "Invalid menu item: " ++ toString it.item_id) ∨
       (msg = "Invalid quantity" ∧ ∃ it ∈ items, it.qty.getD 1 ≤ 0)) := by
  induction items with
  | nil => intro e h; simp [buildLines] at h
  | cons hd tl ih =>
    intro e h
    cases hfind : findById s.menuitems hd.item_id with
    | none =>
      simp only [buildLines, hfind, Except.error.injEq] at h
      refine ⟨"Invalid menu item: " ++ toString hd.item_id, h.symm, .inl ?_⟩
      exact ⟨hd, by simp, by simp [itemOkB, hfind], rfl⟩
    | some doc =>
      simp only [buildLines, hfind] at h
      by_cases hact : doc.is_active = false
      · rw [if_pos hact] at h
        simp only [Except.error.injEq] at h
        refine ⟨"Invalid menu item: " ++ toString hd.item_id, h.symm, .inl ?_⟩
        exact ⟨hd, by simp, by simp [itemOkB, hfind, hact], rfl⟩
      · rw [if_neg hact] at h
        by_cases hq : hd.qty.getD 1 ≤ 0
        · rw [if_pos hq] at h
          simp only [Except.error.injEq] at h
          exact ⟨"Invalid quantity", h.symm, .inr ⟨rfl, hd, by simp, hq⟩⟩
        · rw [if_neg hq] at h
          cases hrec : buildLines s tl with
          | error e2 =>
            rw [hrec] at h
            simp only [Except.error.injEq] at h
            obtain ⟨msg, hmsg, hcase⟩ := ih e2 hrec
            refine ⟨msg, by rw [← h, hmsg], ?_⟩
            rcases hcase with ⟨it, hit, hcond⟩ | ⟨hm, it, hit, hcond⟩
            · exact .inl ⟨it, by simp [hit], hcond⟩
            · exact .inr ⟨hm, it, by simp [hit], hcond⟩
          | ok pr =>
            rw [hrec] at h
            cases h

theorem buildLines_error_of_invalid (s : Store) (items : List ReqItem)
    (h : ∃ it ∈ items, validLineB s it = false) :
    ∃ e, buildLines s items = .error e := by
  induction items with
  | nil => simp at h
  | cons hd tl ih =>
    cases hfind : findById s.menuitems hd.item_id with
    | none =>
      exact ⟨.badRequest ("Invalid menu item: " ++ toString hd.item_id),
        by simp only [buildLines, hfind]⟩
    | some doc =>
      by_cases hact : doc.is_active = false
      · exact ⟨.badRequest ("Invalid menu item: " ++ toString hd.item_id),
          by simp only [buildLines, hfind, if_pos hact]⟩
      · by_cases hq : hd.qty.getD 1 ≤ 0
        · exact ⟨.badRequest "Invalid quantity",
            by simp only [buildLines, hfind, if_neg hact, if_pos hq]⟩
        · have hhd : validLineB s hd = true := by
            have hda : doc.is_active = true := by
              cases hda : doc.is_active
              · exact absurd hda hact
              · rfl
            simp [validLineB, itemOkB, hfind, hda, not_le.mp hq]
          have htl : ∃ it ∈ tl, validLineB s it = false := by
            rcases h with ⟨it, hit, hbad⟩
            rcases List.mem_cons.mp hit with heq | hmem
            · rw [heq] at hbad; rw [hhd] at hbad; cases hbad
            · exact ⟨it, hmem, hbad⟩
          obtain ⟨e2, he2⟩ := ih htl
          exact ⟨e2, by simp only [buildLines, hfind, if_neg hact, if_neg hq,
            he2]⟩

theorem buildLines_ignores_price (s : Store) (items : List ReqItem)
    (f : ReqItem → Option ℚ) :
    buildLines s (items.map (fun it => { it with price := f it })) =
      buildLines s items := by
  induction items with
  | nil => rfl
  | cons hd tl ih =>
    rw [List.map_cons, buildLines, buildLines, ih]

theorem round2_zero : round2 0 = 0 := by
  norm_num [round2, roundHalfEvenZ]

theorem create_order_ignores_client_price (req : CreateOrderRequest)
    (f : ReqItem → Option ℚ) (b : Bool) (s : Store) :
    create_order { req with
        items := req.items.map (fun it => { it with price := f it }) } b s =
      create_order req b s := by
  have hmap : (req.items.map (fun it => { it with price := f it })).isEmpty =
      req.items.isEmpty := by
    cases req.items <;> rfl
  simp only [create_order, hmap, buildLines_ignores_price]

theorem create_order_ok (req : CreateOrderRequest) (b : Bool) (s : Store)
    (hne : req.items ≠ [])
    (hval : ∀ it ∈ req.items, validLineB s it = true)
    (hfresh : freshFor s.orders s.nextId) :
    (create_order req b s).1 = .ok (s.nextId, (pricedOrder s req).total) ∧
    findById (create_order req b s).2.orders s.nextId =
      some (pricedOrder s req) := by
  have hie : req.items.isEmpty = false := by
    cases hi : req.items
    · exact absurd hi hne
    · rfl
  have hb := buildLines_ok s req.items hval
  constructor
  · simp [create_order, hie, hb, pricedOrder, orderSubtotal]
  · simp only [create_order, hie, hb, Bool.false_eq_true, if_false,
      audit_orders]
    exact findById_append_fresh _ _ _ hfresh

/-- Claim C2: for every order request whose lines all reference existing
active menu items with quantity > 0, `createOrder` prices each line from the
stored menu price as `total_price = unit_price * qty` (any client-supplied
price is ignored), sums these into `subtotal`, and sets
`tax = round(subtotal * tax_rate, 2)` and `total = round(subtotal + tax, 2)`
with half-even rounding to 2 decimal places; the returned total equals the
persisted order's total. -/
theorem createOrder_pricing (req : CreateOrderRequest) (b : Bool) (s : Store)
    (hne : req.items ≠ [])
    (hval : ∀ it ∈ req.items, validLineB s it = true)
    (hfresh : freshFor s.orders s.nextId) :
    ∃ ord : Order,
      (create_order req b s).1 = .ok (s.nextId, ord.total) ∧
      findById (create_order req b s).2.orders s.nextId = some ord ∧
      ord.items = req.items.map (lineOf s) ∧
      (∀ li ∈ ord.items, li.total_price = li.unit_price * li.qty) ∧
      (∀ it ∈ req.items, ∃ m, findById s.menuitems it.item_id = some m ∧
        (lineOf s it).unit_price = m.price ∧
        (lineOf s it).qty = it.qty.getD 1) ∧
      ord.subtotal = (ord.items.map OrderItem.total_price).sum ∧
      ord.tax = round2 (ord.subtotal * taxRateOf s req.cafe_id) ∧
      ord.total = round2 (ord.subtotal + ord.tax) ∧
      (∀ f : ReqItem → Option ℚ,
        create_order { req with
            items := req.items.map (fun it => { it with price := f it }) }
          b s = create_order req b s) := by
  obtain ⟨h1, h2⟩ := create_order_ok req b s hne hval hfresh
  refine ⟨pricedOrder s req, h1, h2, rfl, ?_, ?_, rfl, rfl, rfl, ?_⟩
  · intro li hli
    rcases List.mem_map.mp hli with ⟨it, _, hit⟩
    rw [← hit]
    exact lineOf_total s it
  · intro it hit
    have hv := hval it hit
    rw [validLineB, Bool.and_eq_true] at hv
    obtain ⟨hok, _⟩ := hv
    cases hfind : findById s.menuitems it.item_id with
    | none => rw [itemOkB_none s _ hfind] at hok; cases hok
    | some m => exact ⟨m, rfl, by simp [lineOf, hfind], by simp [lineOf, hfind]⟩
  · intro f
    exact create_order_ignores_client_price req f b s

theorem createOrder_pricing_witness :
    reqOrderW.items ≠ [] ∧
    (∀ it ∈ reqOrderW.items, validLineB storeA it = true) ∧
    freshFor storeA.orders storeA.nextId ∧
    ∃ ord : Order,
      (create_order reqOrderW true storeA).1 = .ok (20, ord.total) ∧
      findById (create_order reqOrderW true storeA).2.orders 20 = some ord ∧
      ord.tax = round2 (ord.subtotal * taxRateOf storeA "c1") ∧
      ord.total = round2 (ord.subtotal + ord.tax) :=
  ⟨by simp [reqOrderW, linesW], by decide, by decide, by
    obtain ⟨ord, h1, h2, _, _, _, _, h7, h8, _⟩ :=
      createOrder_pricing reqOrderW true storeA
        (by simp [reqOrderW, linesW]) (by decide) (by decide)
    exact ⟨ord, h1, h2, h7, h8⟩⟩

/-- Claim C5: `createOrder` fails with a ValidationError (400) if and only if
the items list is empty, or some line references a menu item id that is
missing or inactive (the error names the offending id), or some line has
quantity ≤ 0; in every such failure case no Order record is created (the
store's order collection is unchanged). -/
theorem createOrder_validation (req : CreateOrderRequest) (b : Bool)
    (s : Store) :
    ((∃ e, (create_order req b s).1 = .error e) ↔
      (req.items = [] ∨ (∃ it ∈ req.items, itemOkB s it.item_id = false) ∨
        (∃ it ∈ req.items, it.qty.getD 1 ≤ 0))) ∧
    (∀ e, (create_order req b s).1 = .error e →
      (create_order req b s).2.orders = s.orders ∧
      ∃ msg, e = .badRequest msg ∧
        ((req.items = [] ∧ msg = "Order must have items") ∨
         (∃ it ∈ req.items, itemOkB s it.item_id = false ∧
            msg = "Invalid menu item: " ++ toString it.item_id) ∨
         (msg = "Invalid quantity" ∧
           ∃ it ∈ req.items, it.qty.getD 1 ≤ 0))) := by
  by_cases hnil : req.items = []
  · have hie : req.items.isEmpty = true := by rw [hnil]; rfl
    refine ⟨⟨fun _ => .inl hnil, fun _ => ?_⟩, fun e he => ?_⟩
    · exact ⟨.badRequest "Order must have items", by simp [create_order, hie]⟩
    · have he2 : e = .badRequest "Order must have items" := by
        simp only [create_order, hie, if_true] at he
        exact ((Except.error.injEq _ _).mp he).symm
      refine ⟨by simp [create_order, hie], "Order must have items",
        he2, .inl ⟨hnil, rfl⟩⟩
  · have hie : req.items.isEmpty = false := by
      cases hi : req.items
      · exact absurd hi hnil
      · rfl
    cases hbl : buildLines s req.items with
    | ok pr =>
      refine ⟨⟨fun he => ?_, fun hcond => ?_⟩, fun e he => ?_⟩
      · exfalso
        obtain ⟨e, he⟩ := he
        simp [create_order, hie, hbl] at he
      · exfalso
        rcases hcond with h | h | h
        · exact hnil h
        · obtain ⟨it, hit, hbad⟩ := h
          obtain ⟨e, hbl2⟩ := buildLines_error_of_invalid s req.items
            ⟨it, hit, by simp [validLineB, hbad]⟩
          rw [hbl] at hbl2; cases hbl2
        · obtain ⟨it, hit, hbad⟩ := h
          obtain ⟨e, hbl2⟩ := buildLines_error_of_invalid s req.items
            ⟨it, hit, by simp [validLineB, decide_eq_false (not_lt.mpr hbad)]⟩
          rw [hbl] at hbl2; cases hbl2
      · exfalso
        simp [create_order, hie, hbl] at he
    | error e2 =>
      have hres : (create_order req b s).1 = .error e2 ∧
          (create_order req b s).2 = s := by
        constructor <;> simp [create_order, hie, hbl]
      obtain ⟨msg, hmsg, hcase⟩ := buildLines_error s req.items e2 hbl
      refine ⟨⟨fun _ => ?_, fun _ => ⟨e2, hres.1⟩⟩, fun e he => ?_⟩
      · rcases hcase with ⟨it, hit, hbad, _⟩ | ⟨_, it, hit, hbad⟩
        · exact .inr (.inl ⟨it, hit, hbad⟩)
        · exact .inr (.inr ⟨it, hit, hbad⟩)
      · have he2 : e = e2 := by
          rw [hres.1] at he
          exact ((Except.error.injEq _ _).mp he).symm
        subst he2
        refine ⟨by rw [hres.2], msg, hmsg, ?_⟩
        rcases hcase with ⟨it, hit, hbad⟩ | ⟨hm, hrest⟩
        · exact .inr (.inl ⟨it, hit, hbad⟩)
        · exact .inr (.inr ⟨hm, hrest⟩)

theorem createOrder_validation_witness :
    (∃ e, (create_order reqOrderBad true storeA).1 = .error e) ∧
    (create_order reqOrderBad true storeA).1 =
      .error (.badRequest "Invalid menu item: 9") ∧
    (create_order reqOrderBad true storeA).2.orders = storeA.orders := by
  have h := createOrder_validation reqOrderBad true storeA
  have hcond : reqOrderBad.items = [] ∨
      (∃ it ∈ reqOrderBad.items, itemOkB storeA it.item_id = false) ∨
      (∃ it ∈ reqOrderBad.items, it.qty.getD 1 ≤ 0) := by
    refine .inr (.inl ⟨⟨9, some 1, none⟩, by simp [reqOrderBad], by decide⟩)
  obtain ⟨e, he⟩ := h.1.mpr hcond
  have hee : e = .badRequest "Invalid menu item: 9" := by
    obtain ⟨_, msg, hmsg, hcase⟩ := h.2 e he
    have : (create_order reqOrderBad true storeA).1 =
        .error (.badRequest "Invalid menu item: 9") := by rfl
    rw [this] at he
    exact ((Except.error.injEq _ _).mp he).symm
  refine ⟨⟨e, he⟩, by rw [← hee]; exact he, (h.2 e he).1⟩

/-- Claim C8: for every valid order request on a cafe that has no stored
settings record, `createOrder` computes tax with an effective tax rate of 0,
so `tax = 0` and `total = round(subtotal, 2)` — differing from the 0.05
default that the settings-read endpoint would lazily create for the same
cafe. -/
theorem createOrder_no_settings (req : CreateOrderRequest) (b : Bool)
    (s : Store)
    (hns : s.settings.find? (fun p => p.2.cafe_id == req.cafe_id) = none)
    (hne : req.items ≠ [])
    (hval : ∀ it ∈ req.items, validLineB s it = true)
    (hfresh : freshFor s.orders s.nextId) :
    ∃ ord : Order,
      (create_order req b s).1 = .ok (s.nextId, ord.total) ∧
      findById (create_order req b s).2.orders s.nextId = some ord ∧
      ord.tax = 0 ∧
      ord.total = round2 ord.subtotal ∧
      (get_settings req.cafe_id s).1.tax_rate = 1/20 ∧
      (1/20 : ℚ) ≠ 0 := by
  obtain ⟨h1, h2⟩ := create_order_ok req b s hne hval hfresh
  have hrate : taxRateOf s req.cafe_id = 0 := by
    simp [taxRateOf, hns]
  have htax : (pricedOrder s req).tax = 0 := by
    simp [pricedOrder, hrate, round2_zero]
  have htot : (pricedOrder s req).total = round2 (pricedOrder s req).subtotal := by
    simp [pricedOrder, hrate, round2_zero]
  have hset : (get_settings req.cafe_id s).1.tax_rate = 1/20 := by
    simp [get_settings, hns, defaultSettings]
  exact ⟨pricedOrder s req, h1, h2, htax, htot, hset, by norm_num⟩

theorem createOrder_no_settings_witness :
    storeA.settings.find? (fun p => p.2.cafe_id == reqOrderW2.cafe_id) =
      none ∧
    reqOrderW2.items ≠ [] ∧
    (∀ it ∈ reqOrderW2.items, validLineB storeA it = true) ∧
    freshFor storeA.orders storeA.nextId ∧
    ∃ ord : Order,
      (create_order reqOrderW2 true storeA).1 = .ok (20, ord.total) ∧
      ord.tax = 0 ∧
      (get_settings reqOrderW2.cafe_id storeA).1.tax_rate = 1/20 :=
  ⟨rfl, by simp [reqOrderW2, linesW], by decide, by decide, by
    obtain ⟨ord, h1, h2, h3, _, h5, _⟩ :=
      createOrder_no_settings reqOrderW2 true storeA rfl
        (by simp [reqOrderW2, linesW]) (by decide) (by decide)
    exact ⟨ord, h1, h3, h5⟩⟩

/-- Claim C3: `startSession` fails with NotFound (404) when the station id
matches no station, fails with Conflict (409) when the station's status is
`in-use`, and when the station's status is `available` it always succeeds:
it creates a Session with status `active` and a start timestamp, sets the
station's status to `in-use`, and sets the station's `current_session_id` to
the id of the newly created session. -/
theorem startSession_spec (req : StartSessionRequest) (now : String)
    (b : Bool) (s : Store) (hfresh : freshFor s.sessions s.nextId) :
    (findById s.stations req.station_id = none →
      start_session req now b s =
        (.error (.notFound "Station not found"), s)) ∧
    (∀ st, findById s.stations req.station_id = some st →
      st.status = .inUse →
      start_session req now b s =
        (.error (.conflict "Station already in use"), s)) ∧
    (∀ st, findById s.stations req.station_id = some st →
      st.status = .available →
      (start_session req now b s).1 = .ok s.nextId ∧
      findById (start_session req now b s).2.sessions s.nextId =
        some { cafe_id := req.cafe_id, station_id := req.station_id,
               customer_name := req.customer_name, status := .active,
               started_at := some now, ended_at := none } ∧
      findById (start_session req now b s).2.stations req.station_id =
        some { st with status := .inUse,
                       current_session_id := some s.nextId }) := by
  refine ⟨?_, ?_, ?_⟩
  · intro h
    simp [start_session, h]
  · intro st h hst
    simp [start_session, h, hst]
  · intro st h hst
    exact start_session_ok req now b s st hfresh h (by rw [hst]; decide)

theorem startSession_spec_witness :
    freshFor storeA.sessions storeA.nextId ∧
    findById storeA.stations 1 = some stAvail ∧
    stAvail.status = .available ∧
    ((start_session ⟨"c1", 1, some "Ana"⟩ "t9" true storeA).1 = .ok 20 ∧
     findById (start_session ⟨"c1", 1, some "Ana"⟩ "t9" true storeA).2.sessions
       20 =
       some { cafe_id := "c1", station_id := 1, customer_name := some "Ana",
              status := .active, started_at := some "t9", ended_at := none } ∧
     findById (start_session ⟨"c1", 1, some "Ana"⟩ "t9" true storeA).2.stations
       1 =
       some { stAvail with status := .inUse,
                           current_session_id := some 20 }) :=
  ⟨by decide, by decide, by decide,
    (startSession_spec ⟨"c1", 1, some "Ana"⟩ "t9" true storeA (by decide)).2.2
      stAvail (by decide) (by decide)⟩

/-- Claim C10: `startSession` rejects only stations whose status is exactly
`in-use`: for every existing station whose status is `offline` or
`maintenance`, it succeeds, creates an active session, and flips the station
to `in-use` with the new session id. -/
theorem startSession_offline_maintenance (req : StartSessionRequest)
    (now : String) (b : Bool) (s : Store)
    (hfresh : freshFor s.sessions s.nextId) :
    ∀ st, findById s.stations req.station_id = some st →
      (st.status = .offline ∨ st.status = .maintenance) →
      (start_session req now b s).1 = .ok s.nextId ∧
      findById (start_session req now b s).2.sessions s.nextId =
        some { cafe_id := req.cafe_id, station_id := req.station_id,
               customer_name := req.customer_name, status := .active,
               started_at := some now, ended_at := none } ∧
      findById (start_session req now b s).2.stations req.station_id =
        some { st with status := .inUse,
                       current_session_id := some s.nextId } := by
  intro st h hst
  refine start_session_ok req now b s st hfresh h ?_
  rcases hst with h1 | h1 <;> rw [h1] <;> decide

theorem startSession_offline_maintenance_witness :
    freshFor storeA.sessions storeA.nextId ∧
    findById storeA.stations 2 = some stOffline ∧
    (stOffline.status = .offline ∨ stOffline.status = .maintenance) ∧
    ((start_session ⟨"c1", 2, none⟩ "t9" true storeA).1 = .ok 20 ∧
     findById (start_session ⟨"c1", 2, none⟩ "t9" true storeA).2.sessions 20 =
       some { cafe_id := "c1", station_id := 2, customer_name := none,
              status := .active, started_at := some "t9", ended_at := none } ∧
     findById (start_session ⟨"c1", 2, none⟩ "t9" true storeA).2.stations 2 =
       some { stOffline with status := .inUse,
                             current_session_id := some 20 }) :=
  ⟨by decide, by decide, by decide,
    startSession_offline_maintenance ⟨"c1", 2, none⟩ "t9" true storeA
      (by decide) stOffline (by decide) (by decide)⟩

theorem end_session_noop (sid : Nat) (now : String) (b : Bool) (s : Store)
    (sess : Session) (h : findById s.sessions sid = some sess)
    (he : sess.status = .ended) : end_session sid now b s = (.ok (), s) := by
  simp [end_session, h, he]

theorem end_session_post_sessions (sid : Nat) (now : String) (b : Bool)
    (s : Store) (sess : Session) (h : findById s.sessions sid = some sess)
    (he : ¬ sess.status = .ended) :
    findById (end_session sid now b s).2.sessions sid =
      some { sess with status := .ended, ended_at := some now } := by
  simp only [end_session, h, if_neg he, audit_sessions]
  rw [findById_updateById_self]
  simp [h]

/-- Claim C4: `endSession` on a session whose status is already `ended`
returns success immediately without modifying the session or any station
(the whole store is returned unchanged), so ending a session twice is
equivalent to ending it once; `endSession` on a missing session id fails
with NotFound. -/
theorem endSession_idempotent (sid : Nat) (now : String) (b : Bool)
    (s : Store) :
    (findById s.sessions sid = none →
      end_session sid now b s = (.error (.notFound "Session not found"), s)) ∧
    (∀ sess, findById s.sessions sid = some sess → sess.status = .ended →
      end_session sid now b s = (.ok (), s)) ∧
    (∀ sess, findById s.sessions sid = some sess → ∀ now2 b2,
      end_session sid now2 b2 (end_session sid now b s).2 =
        (.ok (), (end_session sid now b s).2)) := by
  refine ⟨?_, ?_, ?_⟩
  · intro h
    simp [end_session, h]
  · intro sess h hsess
    simp [end_session, h, hsess]
  · intro sess h now2 b2
    by_cases he : sess.status = .ended
    · have ha := end_session_noop sid now b s sess h he
      rw [ha]
      exact end_session_noop sid now2 b2 s sess h he
    · exact end_session_noop sid now2 b2 _ _
        (end_session_post_sessions sid now b s sess h he) rfl

theorem endSession_idempotent_witness :
    findById storeA.sessions 6 = some sessEnded ∧
    sessEnded.status = .ended ∧
    end_session 6 "t9" true storeA = (.ok (), storeA) :=
  ⟨by decide, by decide,
    (endSession_idempotent 6 "t9" true storeA).2.1 sessEnded (by decide)
      (by decide)⟩

/-! ### Checkout step lemmas -/

@[simp] theorem checkoutSessionStep_payments (c : Option Nat) (now : String)
    (b : Bool) (s : Store) :
    (checkoutSessionStep c now b s).payments = s.payments := by
  unfold checkoutSessionStep
  split
  · rfl
  · split
    · rfl
    · split
      · rfl
      · simp

@[simp] theorem checkoutSessionStep_orders (c : Option Nat) (now : String)
    (b : Bool) (s : Store) :
    (checkoutSessionStep c now b s).orders = s.orders := by
  unfold checkoutSessionStep
  split
  · rfl
  · split
    · rfl
    · split
      · rfl
      · simp

@[simp] theorem checkoutOrderStep_payments (o : Option Nat) (b : Bool)
    (s : Store) : (checkoutOrderStep o b s).payments = s.payments := by
  unfold checkoutOrderStep
  split
  · rfl
  · simp

@[simp] theorem checkoutOrderStep_sessions (o : Option Nat) (b : Bool)
    (s : Store) : (checkoutOrderStep o b s).sessions = s.sessions := by
  unfold checkoutOrderStep
  split
  · rfl
  · simp

@[simp] theorem checkoutOrderStep_stations (o : Option Nat) (b : Bool)
    (s : Store) : (checkoutOrderStep o b s).stations = s.stations := by
  unfold checkoutOrderStep
  split
  · rfl
  · simp

theorem checkoutOrderStep_orders_some (oid : Nat) (b : Bool) (s : Store) :
    (checkoutOrderStep (some oid) b s).orders =
      updateById s.orders oid (fun o => { o with status := .served }) := by
  simp [checkoutOrderStep]

theorem checkout_replay (req : CheckoutRequest) (now : String) (b : Bool)
    (s : Store) (pr : Nat × Payment)
    (h : s.payments.find? (replayMatch req.idempotency_key) = some pr) :
    checkout req now b s = (.ok (pr.1, .success), s) := by
  simp [checkout, h]

theorem checkout_new_payments (req : CheckoutRequest) (now : String)
    (b : Bool) (s : Store)
    (h : s.payments.find? (replayMatch req.idempotency_key) = none) :
    (checkout req now b s).2.payments =
      s.payments ++ [(s.nextId, newPayment req)] := by
  simp [checkout, h]

theorem checkout_new_result (req : CheckoutRequest) (now : String)
    (b : Bool) (s : Store)
    (h : s.payments.find? (replayMatch req.idempotency_key) = none) :
    (checkout req now b s).1 = .ok (s.nextId, .success) := by
  simp [checkout, h]

/-- Claim C1: a checkout request whose `idempotency_key` equals the key of an
already-stored successful Payment returns that payment's id with status
success and creates no new Payment record (the store is unchanged), and none
of the replay's other fields are compared; two sequential checkouts with the
same key (the first succeeding) return the same payment id both times and
leave exactly one matching Payment record. -/
theorem checkout_idempotent (req : CheckoutRequest) (now : String) (b : Bool)
    (s : Store) :
    (∀ pr : Nat × Payment,
      s.payments.find? (replayMatch req.idempotency_key) = some pr →
      ∀ req2 : CheckoutRequest,
        req2.idempotency_key = req.idempotency_key →
        checkout req2 now b s = (.ok (pr.1, .success), s)) ∧
    (s.payments.filter (replayMatch req.idempotency_key) = [] →
      ∀ (req2 : CheckoutRequest),
        req2.idempotency_key = req.idempotency_key → ∀ now2 b2,
        (checkout req now b s).1 = .ok (s.nextId, .success) ∧
        checkout req2 now2 b2 (checkout req now b s).2 =
          (.ok (s.nextId, .success), (checkout req now b s).2) ∧
        ((checkout req now b s).2.payments.filter
          (replayMatch req.idempotency_key)).length = 1) := by
  constructor
  · intro pr hfind req2 hkey
    refine checkout_replay req2 now b s pr ?_
    rw [hkey]
    exact hfind
  · intro hfilter req2 hkey now2 b2
    have hnone : s.payments.find? (replayMatch req.idempotency_key) = none :=
      List.find?_eq_none.mpr (List.filter_eq_nil_iff.mp hfilter)
    have hpay := checkout_new_payments req now b s hnone
    have hmatch : replayMatch req.idempotency_key
        (s.nextId, newPayment req) = true := by
      simp [replayMatch, newPayment]
    refine ⟨checkout_new_result req now b s hnone, ?_, ?_⟩
    · refine checkout_replay req2 now2 b2 _ (s.nextId, newPayment req) ?_
      rw [hkey, hpay, List.find?_append, hnone]
      simp [hmatch]
    · rw [hpay, List.filter_append, hfilter]
      simp [hmatch]

theorem checkout_idempotent_witness :
    (storeA.payments.find? (replayMatch reqPayReplay.idempotency_key) =
       some (11, payOld) ∧
     checkout reqPayReplay "t9" true storeA = (.ok (11, .success), storeA)) ∧
    (storeA.payments.filter (replayMatch reqPayNew.idempotency_key) = [] ∧
     (checkout reqPayNew "t9" true storeA).1 = .ok (20, .success) ∧
     checkout reqPayNew "t10" false (checkout reqPayNew "t9" true storeA).2 =
       (.ok (20, .success), (checkout reqPayNew "t9" true storeA).2) ∧
     ((checkout reqPayNew "t9" true storeA).2.payments.filter
       (replayMatch reqPayNew.idempotency_key)).length = 1) :=
  ⟨⟨rfl,
    (checkout_idempotent reqPayReplay "t9" true storeA).1 (11, payOld) rfl
      reqPayReplay rfl⟩,
   ⟨rfl,
    (checkout_idempotent reqPayNew "t9" true storeA).2 rfl reqPayNew rfl
      "t10" false⟩⟩

theorem checkoutSessionStep_found (sid : Nat) (now : String) (b : Bool)
    (s : Store) (sess : Session)
    (h : findById s.sessions sid = some sess) (hne : sess.status ≠ .ended) :
    findById (checkoutSessionStep (some sid) now b s).sessions sid =
      some { sess with status := .ended, ended_at := some now } ∧
    ∀ st, findById s.stations sess.station_id = some st →
      findById (checkoutSessionStep (some sid) now b s).stations
        sess.station_id =
        some { st with status := .available, current_session_id := none } := by
  constructor
  · simp only [checkoutSessionStep, h, if_neg hne, audit_sessions]
    rw [findById_updateById_self]
    simp [h]
  · intro st hst
    simp only [checkoutSessionStep, h, if_neg hne, audit_stations]
    rw [findById_updateById_self]
    simp [hst]

/-- Claim C6: for every non-replay checkout: if a `session_id` is given and
that session exists with status not `ended`, checkout sets the session's
status to `ended` with an end timestamp and sets that session's station to
`available` with `current_session_id` cleared; if an `order_id` is given,
checkout sets that (existing) order's status to `served` regardless of the
order's prior status. -/
theorem checkout_side_effects (req : CheckoutRequest) (now : String)
    (b : Bool) (s : Store)
    (hno : s.payments.find? (replayMatch req.idempotency_key) = none) :
    (∀ sid sess, req.session_id = some sid →
      findById s.sessions sid = some sess → sess.status ≠ .ended →
      (findById (checkout req now b s).2.sessions sid =
        some { sess with status := .ended, ended_at := some now } ∧
       ∀ st, findById s.stations sess.station_id = some st →
         findById (checkout req now b s).2.stations sess.station_id =
           some { st with status := .available,
                          current_session_id := none })) ∧
    (∀ oid ord, req.order_id = some oid →
      findById s.orders oid = some ord →
      findById (checkout req now b s).2.orders oid =
        some { ord with status := .served }) := by
  constructor
  · intro sid sess hsid hsess hne
    have hsess1 : findById
        ({ s with payments := s.payments ++ [(s.nextId, newPayment req)],
                  nextId := s.nextId + 1 } : Store).sessions sid =
        some sess := hsess
    have hstep := checkoutSessionStep_found sid now b
      { s with payments := s.payments ++ [(s.nextId, newPayment req)],
               nextId := s.nextId + 1 } sess hsess1 hne
    constructor
    · simp only [checkout, hno, hsid, audit_sessions,
        checkoutOrderStep_sessions]
      exact hstep.1
    · intro st hst
      simp only [checkout, hno, hsid, audit_stations,
        checkoutOrderStep_stations]
      exact hstep.2 st hst
  · intro oid ord hoid hord
    simp only [checkout, hno, hoid, audit_orders,
      checkoutOrderStep_orders_some, checkoutSessionStep_orders]
    rw [findById_updateById_self, hord]
    rfl

theorem checkout_side_effects_witness :
    storeA.payments.find? (replayMatch reqPayNew.idempotency_key) = none ∧
    reqPayNew.session_id = some 5 ∧
    findById storeA.sessions 5 = some sessActive ∧
    sessActive.status ≠ .ended ∧
    findById storeA.stations sessActive.station_id = some stBusy ∧
    reqPayNew.order_id = some 10 ∧
    findById storeA.orders 10 = some ordPending ∧
    (findById (checkout reqPayNew "t9" true storeA).2.sessions 5 =
       some { sessActive with status := .ended, ended_at := some "t9" } ∧
     findById (checkout reqPayNew "t9" true storeA).2.stations
       sessActive.station_id =
       some { stBusy with status := .available,
                          current_session_id := none } ∧
     findById (checkout reqPayNew "t9" true storeA).2.orders 10 =
       some { ordPending with status := .served }) := by
  have h := checkout_side_effects reqPayNew "t9" true storeA rfl
  have h1 := h.1 5 sessActive rfl rfl (by decide)
  exact ⟨rfl, rfl, rfl, by decide, rfl, rfl, rfl,
    h1.1, h1.2 stBusy rfl, h.2 10 ordPending rfl rfl⟩

theorem get_settings_found (cafe : String) (s : Store) (pr : Nat × Settings)
    (h : s.settings.find? (fun p => p.2.cafe_id == cafe) = some pr) :
    get_settings cafe s = (pr.2, s) := by
  simp [get_settings, h]

/-- Claim C7: `getSettings` for a cafe with an existing settings record
returns that record unchanged; for a cafe with no stored settings it creates
and persists a record with defaults currency "INR", tax_rate 0.05 and
service_charge_rate 0.0 and returns those values, and a second call for the
same cafe returns the same values without creating another record. -/
theorem getSettings_spec (cafe : String) (s : Store) :
    (∀ pr : Nat × Settings,
      s.settings.find? (fun p => p.2.cafe_id == cafe) = some pr →
      get_settings cafe s = (pr.2, s)) ∧
    (s.settings.find? (fun p => p.2.cafe_id == cafe) = none →
      (get_settings cafe s).1 = defaultSettings cafe ∧
      defaultSettings cafe =
        { cafe_id := cafe, currency := "INR", tax_rate := 1/20,
          service_charge_rate := 0 } ∧
      (get_settings cafe s).2.settings =
        s.settings ++ [(s.nextId, defaultSettings cafe)] ∧
      get_settings cafe (get_settings cafe s).2 =
        (defaultSettings cafe, (get_settings cafe s).2)) := by
  constructor
  · exact fun pr h => get_settings_found cafe s pr h
  · intro h
    have hsnd : (get_settings cafe s).2.settings =
        s.settings ++ [(s.nextId, defaultSettings cafe)] := by
      simp [get_settings, h]
    have hfind : (get_settings cafe s).2.settings.find?
        (fun p => p.2.cafe_id == cafe) =
        some (s.nextId, defaultSettings cafe) := by
      rw [hsnd, List.find?_append, h]
      simp [defaultSettings]
    refine ⟨by simp [get_settings, h], rfl, hsnd, ?_⟩
    rw [get_settings_found cafe _ (s.nextId, defaultSettings cafe) hfind]

theorem getSettings_spec_witness :
    (storeA.settings.find? (fun p => p.2.cafe_id == "c1") =
       some (12, setC1) ∧
     get_settings "c1" storeA = (setC1, storeA)) ∧
    (storeA.settings.find? (fun p => p.2.cafe_id == "c2") = none ∧
     (get_settings "c2" storeA).1 = defaultSettings "c2" ∧
     get_settings "c2" (get_settings "c2" storeA).2 =
       (defaultSettings "c2", (get_settings "c2" storeA).2)) := by
  have h2 := (getSettings_spec "c2" storeA).2 rfl
  exact ⟨⟨rfl, (getSettings_spec "c1" storeA).1 (12, setC1) rfl⟩,
    ⟨rfl, h2.1, h2.2.2.2⟩⟩

/-! ### Audit-failure independence -/

theorem core_fields (s t : Store) (h : s.core = t.core) :
    s.stations = t.stations ∧ s.sessions = t.sessions ∧
    s.menuitems = t.menuitems ∧ s.orders = t.orders ∧
    s.payments = t.payments ∧ s.settings = t.settings ∧
    s.nextId = t.nextId := by
  cases s
  cases t
  simp [Store.core, Store.mk.injEq] at h
  exact ⟨h.1, h.2.1, h.2.2.1, h.2.2.2.1, h.2.2.2.2.1, h.2.2.2.2.2.1,
    h.2.2.2.2.2.2⟩

theorem core_checkoutSessionStep (c : Option Nat) (now : String)
    (b b2 : Bool) (s t : Store) (h : s.core = t.core) :
    (checkoutSessionStep c now b s).core =
      (checkoutSessionStep c now b2 t).core := by
  obtain ⟨h1, h2, h3, h4, h5, h6, h7⟩ := core_fields s t h
  cases c with
  | none => exact h
  | some sid =>
    have hss : findById s.sessions sid = findById t.sessions sid := by
      rw [h2]
    cases hf : findById t.sessions sid with
    | none =>
      have hs : findById s.sessions sid = none := by rw [hss, hf]
      simp only [checkoutSessionStep, hs, hf]
      exact h
    | some sess =>
      have hs : findById s.sessions sid = some sess := by rw [hss, hf]
      by_cases he : sess.status = .ended
      · simp only [checkoutSessionStep, hs, hf, if_pos he]
        exact h
      · simp only [checkoutSessionStep, hs, hf, if_neg he]
        rw [core_audit, core_audit]
        simp [Store.core, h1, h2, h3, h4, h5, h6, h7]

theorem core_checkoutOrderStep (o : Option Nat) (b b2 : Bool) (s t : Store)
    (h : s.core = t.core) :
    (checkoutOrderStep o b s).core = (checkoutOrderStep o b2 t).core := by
  obtain ⟨h1, h2, h3, h4, h5, h6, h7⟩ := core_fields s t h
  cases o with
  | none => exact h
  | some oid =>
    simp only [checkoutOrderStep]
    rw [core_audit, core_audit]
    simp [Store.core, h1, h2, h3, h4, h5, h6, h7]

/-- Claim C9: for every workflow operation that records an audit entry, a
failure of the audit write is caught and discarded: it never raises to the
caller and never changes the operation's result or its other store effects —
each operation returns the same result and the same non-audit store state
(all collections and the id counter) whether the audit write succeeds or
fails. -/
theorem audit_failure_harmless :
    (∀ req now s, ∀ b b2 : Bool,
      (start_session req now b s).1 = (start_session req now b2 s).1 ∧
      (start_session req now b s).2.core =
        (start_session req now b2 s).2.core) ∧
    (∀ sid now s, ∀ b b2 : Bool,
      (end_session sid now b s).1 = (end_session sid now b2 s).1 ∧
      (end_session sid now b s).2.core = (end_session sid now b2 s).2.core) ∧
    (∀ req s, ∀ b b2 : Bool,
      (create_order req b s).1 = (create_order req b2 s).1 ∧
      (create_order req b s).2.core = (create_order req b2 s).2.core) ∧
    (∀ oid newStatus s, ∀ b b2 : Bool,
      (update_order_status oid newStatus b s).1 =
        (update_order_status oid newStatus b2 s).1 ∧
      (update_order_status oid newStatus b s).2.core =
        (update_order_status oid newStatus b2 s).2.core) ∧
    (∀ req now s, ∀ b b2 : Bool,
      (checkout req now b s).1 = (checkout req now b2 s).1 ∧
      (checkout req now b s).2.core = (checkout req now b2 s).2.core) := by
  refine ⟨?_, ?_, ?_, ?_, ?_⟩
  · intro req now s b b2
    cases hf : findById s.stations req.station_id with
    | none => simp [start_session, hf]
    | some st =>
      by_cases hi : st.status = .inUse
      · simp [start_session, hf, hi]
      · simp only [start_session, hf, if_neg hi]
        exact ⟨trivial, by rw [core_audit, core_audit]⟩
  · intro sid now s b b2
    cases hf : findById s.sessions sid with
    | none => simp [end_session, hf]
    | some sess =>
      by_cases he : sess.status = .ended
      · simp [end_session, hf, he]
      · simp only [end_session, hf, if_neg he]
        exact ⟨trivial, by rw [core_audit, core_audit]⟩
  · intro req s b b2
    cases hie : req.items.isEmpty with
    | true => simp [create_order, hie]
    | false =>
      cases hbl : buildLines s req.items with
      | error e =>
        simp [create_order, hie, hbl]
      | ok pr =>
        obtain ⟨lines, sub⟩ := pr
        simp only [create_order, hie, hbl, Bool.false_eq_true, if_false]
        exact ⟨trivial, by rw [core_audit, core_audit]⟩
  · intro oid newStatus s b b2
    cases hf : findById s.orders oid with
    | none => simp [update_order_status, hf]
    | some o =>
      simp only [update_order_status, hf]
      exact ⟨trivial, by rw [core_audit, core_audit]⟩
  · intro req now s b b2
    cases hf : s.payments.find? (replayMatch req.idempotency_key) with
    | some pr => simp [checkout, hf]
    | none =>
      simp only [checkout, hf]
      refine ⟨trivial, ?_⟩
      rw [core_audit, core_audit]
      exact core_checkoutOrderStep _ b b2 _ _
        (core_checkoutSessionStep _ now b b2 _ _ rfl)

end POS
